import Mathlib

/-!
Verification of the Bombervibe simulation engine against its specification.

The repository ships a Playwright test harness; the engine itself (the
`Game` object loaded from index.html) is not part of the visible sources,
so the definitions below are modelled from the specification (spec.md),
with the concrete encodings pinned down by the assertions of the test
harness (grid indexed as grid[y][x], cell codes 0 = empty / 1 = soft /
2 = hard, a 13 by 11 grid, four players spawning at the corners with ids
1..4, bombs carrying a four-round fuse).
-/

namespace Bombervibe

/-- Cell kinds of the grid (test harness encodes them 0 = empty, 1 = soft,
2 = hard). -/
inductive Cell where
  | empty : Cell
  | soft : Cell
  | hard : Cell
deriving DecidableEq, Repr

/-- A grid is a list of rows; a cell is addressed as grid[y][x], matching
the harness expression game.grid[y][x]. -/
abbrev Grid := List (List Cell)

/-- Default grid width (spec section 6, harness asserts game.GRID_WIDTH == 13). -/
def GRID_WIDTH : Nat := 13

/-- Default grid height (spec section 6, harness asserts game.GRID_HEIGHT == 11). -/
def GRID_HEIGHT : Nat := 11

/-- Modelled from the spec: SeededRNG (spec section 4.1), whose source file
is not in the repository. A deterministic pseudo-random stream from an
integer seed, here a standard 32-bit linear congruential step. -/
def rngNext (state : Nat) : Nat := (1664525 * state + 1013904223) % 4294967296

/-- Modelled from the spec: the four corner safe zones of the world
generator (spec section 4.1): each spawn corner plus its two orthogonal
neighbours is forced empty. -/
def isSafeZone (x y : Nat) : Bool :=
  (x == 0 && y == 0) || (x == 1 && y == 0) || (x == 0 && y == 1) ||
  (x == GRID_WIDTH - 1 && y == 0) || (x == GRID_WIDTH - 2 && y == 0) ||
  (x == GRID_WIDTH - 1 && y == 1) ||
  (x == 0 && y == GRID_HEIGHT - 1) || (x == 1 && y == GRID_HEIGHT - 1) ||
  (x == 0 && y == GRID_HEIGHT - 2) ||
  (x == GRID_WIDTH - 1 && y == GRID_HEIGHT - 1) ||
  (x == GRID_WIDTH - 2 && y == GRID_HEIGHT - 1) ||
  (x == GRID_WIDTH - 1 && y == GRID_HEIGHT - 2)

/-- Modelled from the spec: one cell of world generation (spec section 4.1):
hard obstacles where both coordinates are odd, safe zones forced empty,
every other cell drawn from the RNG stream at a fixed soft-cell density. -/
def genCell (x y : Nat) (rng : Nat) : Cell × Nat :=
  if x % 2 == 1 && y % 2 == 1 then (Cell.hard, rng)
  else if isSafeZone x y then (Cell.empty, rng)
  else
    let r := rngNext rng
    (if r % 100 < 60 then Cell.soft else Cell.empty, r)

/-- Modelled from the spec: generation of one row of the world, threading
the RNG state left to right. -/
def genCells (y : Nat) (rng : Nat) : List Nat → List Cell × Nat
  | [] => ([], rng)
  | x :: xs =>
    let p := genCell x y rng
    let q := genCells y p.2 xs
    (p.1 :: q.1, q.2)

/-- Modelled from the spec: generation of the rows of the world, threading
the RNG state top to bottom. -/
def genRows (rng : Nat) : List Nat → Grid × Nat
  | [] => ([], rng)
  | y :: ys =>
    let p := genCells y rng (List.range GRID_WIDTH)
    let q := genRows p.2 ys
    (p.1 :: q.1, q.2)

/-- Modelled from the spec: WorldGenerator contract generate(seed) -> Grid
(spec section 4.1); the generator source is not in the repository. -/
def generate (seed : Nat) : Grid := (genRows seed (List.range GRID_HEIGHT)).1

/-- The turn/round counters of the Arena (spec section 4.3). -/
structure TurnState where
  turnCount : Nat
  roundCount : Nat
  currentAgentIndex : Nat
deriving DecidableEq, Repr

/-- Initial turn state: turn 0, round 0, index 0 (spec section 4.3). -/
def TurnState.init : TurnState := ⟨0, 0, 0⟩

/-- Modelled from the spec: Arena transition nextTurn() with N agents
(spec section 4.3, game.nextTurn in the harness): the turn count
increments, the agent index advances modulo N, and the round increments
exactly when the index wraps to 0. -/
def nextTurn (N : Nat) (s : TurnState) : TurnState :=
  let idx := (s.currentAgentIndex + 1) % N
  { turnCount := s.turnCount + 1
    roundCount := if idx == 0 then s.roundCount + 1 else s.roundCount
    currentAgentIndex := idx }

/-- Loot kinds (spec section 3, exercised by the harness). -/
inductive LootType where
  | flash_radius : LootType
  | extra_bomb : LootType
  | bomb_pickup : LootType
deriving DecidableEq, Repr

/-- A loot item on the board (spec section 3). -/
structure Loot where
  type : LootType
  x : Int
  y : Int
deriving DecidableEq, Repr

/-- A placed bomb (spec section 3; the harness reads playerId, x, y,
roundsUntilExplode — called stage here — and range). -/
structure Bomb where
  playerId : Nat
  x : Int
  y : Int
  stage : Nat
  range : Nat
deriving DecidableEq, Repr

/-- An agent (spec section 3; the harness reads id, x, y, alive,
bombRange, maxBombs, activeBombs). -/
structure Agent where
  id : Nat
  x : Int
  y : Int
  alive : Bool
  bombRange : Nat
  maxBombs : Nat
  activeBombs : Nat
  canCarryBombs : Bool
  carriedBomb : Option Bomb
deriving DecidableEq, Repr

/-- The Arena state (spec sections 3 and 4.3): grid, agents, bombs, loot
and the turn counters. -/
structure GameState where
  width : Nat
  height : Nat
  grid : Grid
  players : List Agent
  bombs : List Bomb
  loot : List Loot
  turnCount : Nat
  roundCount : Nat
  currentPlayerIndex : Nat
deriving DecidableEq, Repr

/-- Cell lookup at signed coordinates; none when off-grid. -/
def cellAt (g : Grid) (x y : Int) : Option Cell :=
  if 0 ≤ x ∧ 0 ≤ y then
    match g[y.toNat]? with
    | some row => row[x.toNat]?
    | none => none
  else none

/-- Move directions accepted by applyMove (spec section 4.3). -/
inductive Direction where
  | up : Direction
  | down : Direction
  | left : Direction
  | right : Direction
  | stay : Direction
deriving DecidableEq, Repr

/-- Coordinate offset of a direction (grid y grows downward, as in the
harness where moving down increments y). -/
def delta : Direction → Int × Int
  | Direction.up => (0, -1)
  | Direction.down => (0, 1)
  | Direction.left => (-1, 0)
  | Direction.right => (1, 0)
  | Direction.stay => (0, 0)

/-- Whether some placed bomb occupies the cell (bombs block movement,
spec section 4.3). -/
def bombAt (bombs : List Bomb) (x y : Int) : Bool :=
  bombs.any (fun b => b.x == x && b.y == y)

/-- Modelled from the spec: the movement validity check of applyMove
(spec sections 4.3 and 7a): a destination is blocked when it is off-grid,
a Hard cell, a Soft cell, or occupied by a bomb. -/
def destBlocked (s : GameState) (x y : Int) : Bool :=
  match cellAt s.grid x y with
  | none => true
  | some Cell.hard => true
  | some Cell.soft => true
  | some Cell.empty => bombAt s.bombs x y

/-- Loot effect application (spec sections 3 and 6, pinned by the harness:
flash_radius raises bombRange by one, extra_bomb raises maxBombs by one,
bomb_pickup unlocks carrying). -/
def applyLoot (t : LootType) (a : Agent) : Agent :=
  match t with
  | LootType.flash_radius => { a with bombRange := a.bombRange + 1 }
  | LootType.extra_bomb => { a with maxBombs := a.maxBombs + 1 }
  | LootType.bomb_pickup => { a with canCarryBombs := true }

/-- Modelled from the spec: the move branch of applyMove, game.movePlayer
in the harness (spec section 4.3): reject when the destination is blocked
or off-grid, otherwise update the position and auto-pick any loot at the
new cell. The engine source is not in the repository. -/
def movePlayer (s : GameState) (pid : Nat) (d : Direction) : Bool × GameState :=
  match s.players.findIdx? (fun p => p.id == pid) with
  | none => (false, s)
  | some i =>
    match s.players[i]? with
    | none => (false, s)
    | some a =>
      let nx := a.x + (delta d).1
      let ny := a.y + (delta d).2
      if destBlocked s nx ny then (false, s)
      else
        let moved := { a with x := nx, y := ny }
        match s.loot.findIdx? (fun l => l.x == nx && l.y == ny) with
        | none => (true, { s with players := s.players.set i moved })
        | some j =>
          match s.loot[j]? with
          | none => (true, { s with players := s.players.set i moved })
          | some l =>
            (true, { s with players := s.players.set i (applyLoot l.type moved)
                            loot := s.loot.eraseIdx j })

/-- Fixed fuse length: four full rounds (spec section 6, harness asserts
roundsUntilExplode == 4 at placement). -/
def FUSE_LENGTH : Nat := 4

/-- Modelled from the spec: game.playerPlaceBomb (spec sections 4.3 and
7b): succeeds only when activeBombs < maxBombs, creating one bomb at the
agent's current position with a four-round fuse and the agent's current
bombRange, and incrementing activeBombs; otherwise a reported no-op. The
engine source is not in the repository. -/
def playerPlaceBomb (s : GameState) (pid : Nat) : Bool × GameState :=
  match s.players.findIdx? (fun p => p.id == pid) with
  | none => (false, s)
  | some i =>
    match s.players[i]? with
    | none => (false, s)
    | some a =>
      if a.activeBombs < a.maxBombs then
        (true, { s with
          bombs := s.bombs ++ [⟨pid, a.x, a.y, FUSE_LENGTH, a.bombRange⟩]
          players := s.players.set i { a with activeBombs := a.activeBombs + 1 } })
      else (false, s)

/-- Modelled from the spec: one directional blast walk of the detonation
algorithm (spec section 4.4): walk outward up to range cells; a Hard cell
stops the walk unmarked, a Soft cell is marked and stops the walk, an
Empty cell is marked and the walk continues; leaving the grid stops the
walk. The engine source is not in the repository. -/
def walkFrom (g : Grid) (x y dx dy : Int) : Nat → List (Int × Int)
  | 0 => []
  | n + 1 =>
    match cellAt g (x + dx) (y + dy) with
    | none => []
    | some Cell.hard => []
    | some Cell.soft => [(x + dx, y + dy)]
    | some Cell.empty => (x + dx, y + dy) :: walkFrom g (x + dx) (y + dy) dx dy n

/-- Modelled from the spec: the explosion cells of one detonating bomb
(spec section 4.4): its own cell plus the four cardinal blast walks. -/
def blastCells (g : Grid) (b : Bomb) : List (Int × Int) :=
  (b.x, b.y) ::
    (walkFrom g b.x b.y 0 (-1) b.range ++ walkFrom g b.x b.y 0 1 b.range ++
     walkFrom g b.x b.y (-1) 0 b.range ++ walkFrom g b.x b.y 1 0 b.range)

/-- Modelled from the spec: one step of the chain-reaction closure (spec
section 4.4): a bomb joins the detonating set when it is already in it or
lies on an explosion cell of a bomb in it. -/
def chainStep (g : Grid) (bombs : List Bomb) (cur : List Bomb) : List Bomb :=
  bombs.filter (fun b =>
    cur.contains b || cur.any (fun c => (blastCells g c).contains (b.x, b.y)))

/-- Iterated chain closure: step zero is the set of bombs whose countdown
reached 0, and each further step adds the chain-triggered bombs. -/
def chainIter (g : Grid) (bombs : List Bomb) : Nat → List Bomb
  | 0 => bombs.filter (fun b => b.stage == 0)
  | n + 1 => chainStep g bombs (chainIter g bombs n)

/-- Modelled from the spec: the set of bombs detonating this tick (spec
section 4.4): the bombs whose countdown reached 0, closed under chain
triggering; iterating one closure step per bomb reaches the fixpoint. -/
def detonatingBombs (g : Grid) (bombs : List Bomb) : List Bomb :=
  chainIter g bombs bombs.length

/-- Countdown tick of a single bomb (spec section 4.4): a positive stage
decrements; Nat subtraction leaves an already-zero stage unchanged. -/
def tickBomb (b : Bomb) : Bomb := { b with stage := b.stage - 1 }

/-- Set a cell of the grid (used to convert destroyed Soft cells). -/
def gridSet (g : Grid) (x y : Int) (c : Cell) : Grid :=
  if 0 ≤ x ∧ 0 ≤ y then
    match g[y.toNat]? with
    | some row => g.set y.toNat (row.set x.toNat c)
    | none => g
  else g

/-- Modelled from the spec: conversion of blasted Soft cells to Empty
(spec section 4.4); cells that are not Soft are left as they are. -/
def clearSoft (g : Grid) (cells : List (Int × Int)) : Grid :=
  cells.foldl
    (fun g' c =>
      if cellAt g' c.1 c.2 = some Cell.soft then gridSet g' c.1 c.2 Cell.empty
      else g') g

/-- Modelled from the spec: game.updateBombs (spec section 4.4), invoked
once per full round: decrement every positive countdown, detonate every
bomb reaching 0 together with its chain closure, mark the blast cells,
kill every agent standing on a marked cell, convert blasted Soft cells to
Empty, and free the owners' activeBombs slots. The engine source is not
in the repository. -/
def updateBombs (s : GameState) : GameState :=
  let ticked := s.bombs.map tickBomb
  let det := detonatingBombs s.grid ticked
  let cells := (det.map (blastCells s.grid)).flatten
  let players' := s.players.map (fun p =>
    { p with
      alive := p.alive && !(cells.contains (p.x, p.y))
      activeBombs := p.activeBombs - (det.filter (fun b => b.playerId == p.id)).length })
  { s with
    bombs := ticked.filter (fun b => !(det.contains b))
    players := players'
    grid := clearSoft s.grid cells }

/-- Modelled from the spec: the pickup action (spec section 4.3): succeeds
only when the agent can carry bombs, carries none, and a bomb occupies the
agent's cell; the bomb leaves the board into carriedBomb and the original
owner's activeBombs slot is freed. The engine source is not in the
repository. -/
def pickupBomb (s : GameState) (pid : Nat) : Bool × GameState :=
  match s.players.findIdx? (fun p => p.id == pid) with
  | none => (false, s)
  | some i =>
    match s.players[i]? with
    | none => (false, s)
    | some a =>
      if a.canCarryBombs && a.carriedBomb.isNone then
        match s.bombs.findIdx? (fun b => b.x == a.x && b.y == a.y) with
        | none => (false, s)
        | some j =>
          match s.bombs[j]? with
          | none => (false, s)
          | some b =>
            let freeOwner := fun (p : Agent) =>
              if p.id == b.playerId then { p with activeBombs := p.activeBombs - 1 }
              else p
            (true, { s with
              players := (s.players.map freeOwner).set i
                { freeOwner a with carriedBomb := some b }
              bombs := s.bombs.eraseIdx j })
      else (false, s)

/-- One projection step of a thrown bomb with toroidal wrap (spec section
4.3): the coordinates advance by the direction offset and wrap modulo the
grid dimensions. -/
def wrapPos (W H : Nat) (x y dx dy : Int) : Int × Int :=
  ((x + dx) % (W : Int), (y + dy) % (H : Int))

/-- Whether a cell blocks a thrown bomb from landing: Hard, Soft, or an
occupied bomb cell. -/
def landingBlocked (g : Grid) (bombs : List Bomb) (x y : Int) : Bool :=
  match cellAt g x y with
  | none => true
  | some Cell.hard => true
  | some Cell.soft => true
  | some Cell.empty => bombAt bombs x y

/-- Modelled from the spec: the throw projection (spec section 4.3): the
bomb advances cell by cell in the thrown direction, wrapping toroidally at
the grid boundary, until it reaches a non-blocking cell or the maximum
throw distance is exhausted. -/
def throwProject (g : Grid) (bombs : List Bomb) (W H : Nat) :
    Nat → Int → Int → Int → Int → Int × Int
  | 0, x, y, _, _ => (x, y)
  | n + 1, x, y, dx, dy =>
    let p := wrapPos W H x y dx dy
    if landingBlocked g bombs p.1 p.2 then throwProject g bombs W H n p.1 p.2 dx dy
    else p

/-- Maximum throw distance; the spec (section 4.3) leaves the configured
value open, the model fixes it at 5 cells. -/
def MAX_THROW_DISTANCE : Nat := 5

/-- Modelled from the spec: the throw action (spec section 4.3): requires
a non-empty carriedBomb, which re-enters the board at the projected
landing cell; without a carried bomb the action is a reported no-op (spec
section 7c). The engine source is not in the repository. -/
def throwBomb (s : GameState) (pid : Nat) (d : Direction) : Bool × GameState :=
  match s.players.findIdx? (fun p => p.id == pid) with
  | none => (false, s)
  | some i =>
    match s.players[i]? with
    | none => (false, s)
    | some a =>
      match a.carriedBomb with
      | none => (false, s)
      | some b =>
        let p := throwProject s.grid s.bombs s.width s.height MAX_THROW_DISTANCE
          a.x a.y (delta d).1 (delta d).2
        (true, { s with
          players := s.players.set i { a with carriedBomb := none }
          bombs := s.bombs ++ [{ b with x := p.1, y := p.2 }] })

/-- The Arena-level turn advance: nextTurn over the game's counters with
N = number of players (spec section 4.3). -/
def nextTurnGame (s : GameState) : GameState :=
  let t := nextTurn s.players.length ⟨s.turnCount, s.roundCount, s.currentPlayerIndex⟩
  { s with
    turnCount := t.turnCount
    roundCount := t.roundCount
    currentPlayerIndex := t.currentAgentIndex }

/-- A freshly spawned agent: alive at its corner with base stats (spec
section 3: bombRange 1, maxBombs 1, no bombs placed, no carry ability). -/
def mkAgent (id : Nat) (x y : Int) : Agent :=
  ⟨id, x, y, true, 1, 1, 0, false, none⟩

/-- Modelled from the spec: arena initialization with the default 13 by 11
configuration (spec sections 3 and 6, pinned by the harness): four agents
at the corners in id order 1..4, an empty bomb and loot list, and the
initial turn counters. The engine source is not in the repository. -/
def initGame (seed : Nat) : GameState :=
  { width := GRID_WIDTH
    height := GRID_HEIGHT
    grid := generate seed
    players :=
      [mkAgent 1 0 0, mkAgent 2 (GRID_WIDTH - 1) 0,
       mkAgent 3 0 (GRID_HEIGHT - 1), mkAgent 4 (GRID_WIDTH - 1) (GRID_HEIGHT - 1)]
    bombs := []
    loot := []
    turnCount := 0
    roundCount := 0
    currentPlayerIndex := 0 }

/-- A fixed 13 by 11 test grid: the classic hard-obstacle parity pattern
with no soft blocks, used for the concrete scenarios. -/
def baseGrid : Grid :=
  (List.range GRID_HEIGHT).map (fun y =>
    (List.range GRID_WIDTH).map (fun x =>
      if x % 2 == 1 && y % 2 == 1 then Cell.hard else Cell.empty))

/-- Concrete scenario B start state: agents 1 and 2 inside the coming
blast (at (0,0) and (1,0)), agents 3 and 4 outside it. -/
def scenarioBStart : GameState :=
  { width := GRID_WIDTH
    height := GRID_HEIGHT
    grid := baseGrid
    players := [mkAgent 1 0 0, mkAgent 2 1 0, mkAgent 3 0 2, mkAgent 4 12 10]
    bombs := []
    loot := []
    turnCount := 0
    roundCount := 0
    currentPlayerIndex := 0 }

/-- Concrete scenario C start state: default corners, an extra_bomb loot
waiting at (1,0) next to agent 1. -/
def scenarioCStart : GameState :=
  { width := GRID_WIDTH
    height := GRID_HEIGHT
    grid := baseGrid
    players := [mkAgent 1 0 0, mkAgent 2 12 0, mkAgent 3 0 10, mkAgent 4 12 10]
    bombs := []
    loot := [⟨LootType.extra_bomb, 1, 0⟩]
    turnCount := 0
    roundCount := 0
    currentPlayerIndex := 0 }

/-- Concrete scenario D start state: agent 1 stands at the rightmost
column (12, 0) carrying a bomb. -/
def scenarioDStart : GameState :=
  { width := GRID_WIDTH
    height := GRID_HEIGHT
    grid := baseGrid
    players := [⟨1, 12, 0, true, 1, 1, 0, true, some ⟨1, 12, 0, 2, 1⟩⟩]
    bombs := []
    loot := []
    turnCount := 0
    roundCount := 0
    currentPlayerIndex := 0 }

/-- The cell at distance i from (x, y) along the direction offset
(dx, dy): the i-th cell of a blast walk. -/
def stepPos (x y dx dy : Int) : Nat → Int × Int
  | 0 => (x, y)
  | i + 1 => stepPos (x + dx) (y + dy) dx dy i

/-- Cell lookup at a coordinate pair. -/
def cellAtP (g : Grid) (p : Int × Int) : Option Cell := cellAt g p.1 p.2

/-- Scenario B after agent 1 places its bomb at (0,0). -/
def scenarioBPlaced : GameState := (playerPlaceBomb scenarioBStart 1).2

/-- Scenario B after the four round-advancing updateBombs calls. -/
def scenarioBAfter : GameState :=
  updateBombs (updateBombs (updateBombs (updateBombs scenarioBPlaced)))

/-- Scenario C, round 1: agent 1 moves right onto the extra_bomb loot. -/
def scC1 : Bool × GameState := movePlayer scenarioCStart 1 Direction.right

/-- Scenario C, end of round 1. -/
def scCu1 : GameState := updateBombs scC1.2

/-- Scenario C, round 2: agent 1 places its first bomb, at (1,0). -/
def scC2 : Bool × GameState := playerPlaceBomb scCu1 1

/-- Scenario C, round 2: agent 1 steps right to (2,0). -/
def scC3 : Bool × GameState := movePlayer scC2.2 1 Direction.right

/-- Scenario C, end of round 2. -/
def scCu2 : GameState := updateBombs scC3.2

/-- Scenario C, round 3: agent 1 steps right to (3,0). -/
def scC4 : Bool × GameState := movePlayer scCu2 1 Direction.right

/-- Scenario C, end of round 3. -/
def scCu3 : GameState := updateBombs scC4.2

/-- Scenario C, round 4: agent 1 places its second bomb, at (3,0). -/
def scC5 : Bool × GameState := playerPlaceBomb scCu3 1

/-- Scenario C, round 4: agent 1 steps right to (4,0). -/
def scC6 : Bool × GameState := movePlayer scC5.2 1 Direction.right

/-- Scenario C, end of round 4. -/
def scCu4 : GameState := updateBombs scC6.2

/-- Scenario C, round 5: the third placement attempt while both bombs are
active. -/
def scC7 : Bool × GameState := playerPlaceBomb scCu4 1

/-- Scenario C, round 5: agent 1 steps down to (4,1), clear of both
blasts. -/
def scC8 : Bool × GameState := movePlayer scC7.2 1 Direction.down

/-- Scenario C, end of round 5: the first bomb's countdown reaches 0 and
it explodes. -/
def scCu5 : GameState := updateBombs scC8.2

/-- Scenario C, round 6: the third placement after the first explosion. -/
def scC9 : Bool × GameState := playerPlaceBomb scCu5 1

/-- A one-row grid with a Soft cell at x = 2, for exercising the
blast-stop behaviour. -/
def gridBlast : Grid := [[Cell.empty, Cell.empty, Cell.soft, Cell.empty]]

/-- A bomb at (0,0) with range 3 on the one-row grid. -/
def bombBlast : Bomb := ⟨1, 0, 0, 0, 3⟩

/-- The capacity invariant (spec section 8): every agent has
activeBombs ≤ maxBombs. -/
def CapacityOK (s : GameState) : Prop :=
  ∀ a ∈ s.players, a.activeBombs ≤ a.maxBombs

/-- States reachable from arena initialization by the mutating operations
of the Arena (spec section 4.3). -/
inductive Reachable : GameState → Prop where
  | init (seed : Nat) : Reachable (initGame seed)
  | move (s : GameState) (pid : Nat) (d : Direction) :
      Reachable s → Reachable (movePlayer s pid d).2
  | place (s : GameState) (pid : Nat) :
      Reachable s → Reachable (playerPlaceBomb s pid).2
  | pick (s : GameState) (pid : Nat) :
      Reachable s → Reachable (pickupBomb s pid).2
  | toss (s : GameState) (pid : Nat) (d : Direction) :
      Reachable s → Reachable (throwBomb s pid d).2
  | next (s : GameState) : Reachable s → Reachable (nextTurnGame s)
  | update (s : GameState) : Reachable s → Reachable (updateBombs s)

/-- C1: world generation is deterministic — generate is a pure function of
the seed, so any two invocations with the same seed yield identical
grids — and seed-sensitive: the tested seed pair 123456 and 123457 yields
different grids. -/
theorem generate_deterministic_and_seed_sensitive :
    (∀ s : Nat, generate s = generate s) ∧ generate 123456 ≠ generate 123457 :=
  ⟨fun _ => rfl, by decide⟩

/-- C10: initializing the arena with the default 13 by 11 configuration
creates, for every seed, exactly four agents, all alive, at the corner
positions (0,0), (12,0), (0,10), (12,10) in id order 1..4, with turn
count 0, round count 0 and an empty bomb list. -/
theorem initGame_contract (seed : Nat) :
    (initGame seed).players.map (fun p => (p.id, p.x, p.y, p.alive)) =
      [(1, 0, 0, true), (2, 12, 0, true), (3, 0, 10, true), (4, 12, 10, true)] ∧
    (initGame seed).width = 13 ∧ (initGame seed).height = 11 ∧
    (initGame seed).turnCount = 0 ∧ (initGame seed).roundCount = 0 ∧
    (initGame seed).bombs = [] :=
  ⟨rfl, rfl, rfl, rfl, rfl, rfl⟩

/-- C2: from the initial turn state, after exactly k calls to nextTurn()
with N ≥ 1 agents, the turn count is k, the round count is k / N and the
current agent index is k % N. -/
theorem nextTurn_turn_round_invariant (N k : Nat) (hN : 1 ≤ N) :
    (nextTurn N)^[k] TurnState.init = ⟨k, k / N, k % N⟩ := by
  induction k with
  | zero => simp [TurnState.init]
  | succ k ih =>
    rw [Function.iterate_succ_apply', ih]
    have hmod : (k % N + 1) % N = (k + 1) % N := Nat.mod_add_mod k N 1
    have hdiv : (k + 1) / N = k / N + if N ∣ k + 1 then 1 else 0 := Nat.succ_div k N
    show TurnState.mk (k + 1)
        (if (k % N + 1) % N == 0 then k / N + 1 else k / N) ((k % N + 1) % N) =
      TurnState.mk (k + 1) ((k + 1) / N) ((k + 1) % N)
    rw [hmod, hdiv]
    by_cases h : N ∣ k + 1
    · have hz : (k + 1) % N = 0 := Nat.dvd_iff_mod_eq_zero.mp h
      simp [h, hz]
    · have hz : (k + 1) % N ≠ 0 := fun hc =>
        h (Nat.dvd_iff_mod_eq_zero.mpr hc)
      simp [h, hz]

/-- Witness for C2 at N = 3 agents and k = 7 calls. -/
theorem nextTurn_turn_round_invariant_witness :
    1 ≤ 3 ∧ (nextTurn 3)^[7] TurnState.init = ⟨7, 2, 1⟩ :=
  ⟨by decide, nextTurn_turn_round_invariant 3 7 (by decide)⟩

/-- C5: playerPlaceBomb succeeds exactly when the agent's activeBombs is
below maxBombs; on success it appends exactly one bomb at the agent's
current (pre-move) position with the fixed four-round fuse and the agent's
current bombRange and increments the agent's activeBombs by one, touching
nothing else; at saturated capacity it is a reported no-op. -/
theorem playerPlaceBomb_contract (s : GameState) (pid i : Nat) (a : Agent)
    (hi : s.players.findIdx? (fun p => p.id == pid) = some i)
    (ha : s.players[i]? = some a) :
    ((playerPlaceBomb s pid).1 = true ↔ a.activeBombs < a.maxBombs) ∧
    (a.activeBombs < a.maxBombs →
      (playerPlaceBomb s pid).2 = { s with
        bombs := s.bombs ++ [⟨pid, a.x, a.y, FUSE_LENGTH, a.bombRange⟩]
        players := s.players.set i { a with activeBombs := a.activeBombs + 1 } }) ∧
    (¬ a.activeBombs < a.maxBombs → (playerPlaceBomb s pid).2 = s) := by
  unfold playerPlaceBomb
  rw [hi]
  simp only [ha]
  by_cases h : a.activeBombs < a.maxBombs <;> simp [h]

/-- Witness for C5: agent 1 of scenario B (no bomb active, capacity 1)
successfully places a bomb at its corner. -/
theorem playerPlaceBomb_contract_witness :
    scenarioBStart.players.findIdx? (fun p => p.id == 1) = some 0 ∧
    scenarioBStart.players[0]? = some (mkAgent 1 0 0) ∧
    ((playerPlaceBomb scenarioBStart 1).1 = true ↔
      (mkAgent 1 0 0).activeBombs < (mkAgent 1 0 0).maxBombs) :=
  ⟨by decide, by decide,
    (playerPlaceBomb_contract scenarioBStart 1 0 (mkAgent 1 0 0)
      (by decide) (by decide)).1⟩

/-- The destination check of applyMove, spelled out: blocked exactly when
off-grid, a Hard cell, a Soft cell, or occupied by a bomb. -/
theorem destBlocked_iff (s : GameState) (x y : Int) :
    destBlocked s x y = true ↔
      cellAt s.grid x y = none ∨ cellAt s.grid x y = some Cell.hard ∨
      cellAt s.grid x y = some Cell.soft ∨ bombAt s.bombs x y = true := by
  unfold destBlocked
  cases h : cellAt s.grid x y with
  | none => simp
  | some c => cases c <;> simp

/-- C6: movePlayer is a reported no-op exactly when the destination cell is
off-grid, Hard, Soft, or occupied by a bomb; otherwise it is accepted, the
agent's position becomes the destination, and loot at the new cell is
picked up automatically (its effect applied to the agent, the item
removed). -/
theorem movePlayer_contract (s : GameState) (pid i : Nat) (a : Agent) (d : Direction)
    (hi : s.players.findIdx? (fun p => p.id == pid) = some i)
    (ha : s.players[i]? = some a) :
    ((movePlayer s pid d).1 = false ↔
      (cellAt s.grid (a.x + (delta d).1) (a.y + (delta d).2) = none ∨
       cellAt s.grid (a.x + (delta d).1) (a.y + (delta d).2) = some Cell.hard ∨
       cellAt s.grid (a.x + (delta d).1) (a.y + (delta d).2) = some Cell.soft ∨
       bombAt s.bombs (a.x + (delta d).1) (a.y + (delta d).2) = true)) ∧
    ((movePlayer s pid d).1 = false → (movePlayer s pid d).2 = s) ∧
    ((movePlayer s pid d).1 = true →
      (s.loot.findIdx?
          (fun l => l.x == a.x + (delta d).1 && l.y == a.y + (delta d).2) = none →
        (movePlayer s pid d).2 = { s with
          players := s.players.set i
            { a with x := a.x + (delta d).1, y := a.y + (delta d).2 } }) ∧
      (∀ j l, s.loot.findIdx?
          (fun l => l.x == a.x + (delta d).1 && l.y == a.y + (delta d).2) = some j →
        s.loot[j]? = some l →
        (movePlayer s pid d).2 = { s with
          players := s.players.set i
            (applyLoot l.type { a with x := a.x + (delta d).1, y := a.y + (delta d).2 })
          loot := s.loot.eraseIdx j })) := by
  unfold movePlayer
  rw [hi]
  simp only [ha]
  by_cases hb : destBlocked s (a.x + (delta d).1) (a.y + (delta d).2) = true
  · rw [← destBlocked_iff]
    simp [hb]
  · rw [← destBlocked_iff]
    cases hl : s.loot.findIdx?
        (fun l => l.x == a.x + (delta d).1 && l.y == a.y + (delta d).2) with
    | none => simp [hb, hl]
    | some j =>
      cases hj : s.loot[j]? with
      | none =>
        simp only [hb, hl, hj, Bool.false_eq_true, if_false]
        refine ⟨by simp [hb], by simp, fun _ => ⟨by simp, ?_⟩⟩
        intro j' l' hj' hl'
        injection hj' with hjj
        subst hjj
        rw [hj] at hl'
        cases hl'
      | some l =>
        simp only [hb, hl, hj, Bool.false_eq_true, if_false]
        refine ⟨by simp [hb], by simp, fun _ => ⟨by simp, ?_⟩⟩
        intro j' l' hj' hl'
        injection hj' with hjj
        subst hjj
        rw [hj] at hl'
        injection hl' with hll
        subst hll
        rfl

/-- Witness for C6: agent 1 of scenario B moves down from (0,0) to (0,1);
the destination is empty and bomb-free, so the move is accepted. -/
theorem movePlayer_contract_witness :
    scenarioBStart.players.findIdx? (fun p => p.id == 1) = some 0 ∧
    scenarioBStart.players[0]? = some (mkAgent 1 0 0) ∧
    ((movePlayer scenarioBStart 1 Direction.down).1 = false ↔
      (cellAt scenarioBStart.grid 0 1 = none ∨
       cellAt scenarioBStart.grid 0 1 = some Cell.hard ∨
       cellAt scenarioBStart.grid 0 1 = some Cell.soft ∨
       bombAt scenarioBStart.bombs 0 1 = true)) :=
  ⟨by decide, by decide,
    (movePlayer_contract scenarioBStart 1 0 (mkAgent 1 0 0) Direction.down
      (by decide) (by decide)).1⟩

/-- Every stage of the chain closure only contains bombs of the board. -/
theorem chainIter_subset (g : Grid) (bombs : List Bomb) (n : Nat) :
    ∀ b ∈ chainIter g bombs n, b ∈ bombs := by
  cases n with
  | zero => exact fun b hb => (List.mem_filter.mp hb).1
  | succ n => exact fun b hb => (List.mem_filter.mp hb).1

/-- The zero-stage bombs stay in every later stage of the chain closure. -/
theorem chainIter_mono (g : Grid) (bombs : List Bomb) (n : Nat) :
    ∀ b ∈ chainIter g bombs 0, b ∈ chainIter g bombs n := by
  induction n with
  | zero => exact fun b hb => hb
  | succ n ih =>
    intro b hb
    have hbombs : b ∈ bombs := chainIter_subset g bombs 0 b hb
    have hcur : b ∈ chainIter g bombs n := ih b hb
    show b ∈ chainStep g bombs (chainIter g bombs n)
    refine List.mem_filter.mpr ⟨hbombs, ?_⟩
    simp only [Bool.or_eq_true]
    left
    simp [hcur]

/-- C3: in concrete scenario B an agent places a bomb at (0,0) with a
four-round fuse; after exactly four round-advancing updateBombs calls the
bomb list is empty and exactly the agents at (0,0) and at (1,0) — inside
the blast along an unobstructed axis — are dead, the agents outside the
blast alive. Moreover every updateBombs call decrements the stage of every
surviving bomb (each survivor is the decrement of a board bomb) and
detonates every bomb reaching stage 0 (no survivor has stage 0). -/
theorem updateBombs_lifecycle_scenarioB :
    (scenarioBPlaced.bombs = [⟨1, 0, 0, FUSE_LENGTH, 1⟩] ∧
     scenarioBAfter.bombs = [] ∧
     scenarioBAfter.players.map (fun p => (p.id, p.x, p.y, p.alive)) =
       [(1, 0, 0, false), (2, 1, 0, false), (3, 0, 2, true), (4, 12, 10, true)]) ∧
    (∀ s : GameState, ∀ b ∈ (updateBombs s).bombs,
      1 ≤ b.stage ∧ ∃ b0 ∈ s.bombs, b = tickBomb b0) := by
  refine ⟨⟨by decide, by decide, by decide⟩, ?_⟩
  intro s b hb
  unfold updateBombs at hb
  simp only at hb
  obtain ⟨hmem, hpred⟩ := List.mem_filter.mp hb
  obtain ⟨b0, hb0, rfl⟩ := List.mem_map.mp hmem
  refine ⟨?_, b0, hb0, rfl⟩
  by_contra hlt
  have hstage : ((tickBomb b0).stage == 0) = true := by
    simp only [beq_iff_eq]
    omega
  have hseed : tickBomb b0 ∈ chainIter s.grid (s.bombs.map tickBomb) 0 :=
    List.mem_filter.mpr ⟨hmem, hstage⟩
  have hdet : tickBomb b0 ∈ detonatingBombs s.grid (s.bombs.map tickBomb) :=
    chainIter_mono _ _ _ _ hseed
  rw [List.mem_filter] at hb
  have hcontains : (detonatingBombs s.grid (s.bombs.map tickBomb)).contains (tickBomb b0) = true := by
    simp [hdet]
  rw [hcontains] at hb
  simp at hb

/-- Witness for C3: after one updateBombs call on the placed scenario B
bomb, the surviving bomb has stage 3 — the decrement of the placed
stage-4 bomb. -/
theorem updateBombs_lifecycle_scenarioB_witness :
    (⟨1, 0, 0, 3, 1⟩ : Bomb) ∈ (updateBombs scenarioBPlaced).bombs ∧
    (1 ≤ (3 : Nat) ∧ ∃ b0 ∈ scenarioBPlaced.bombs,
      (⟨1, 0, 0, 3, 1⟩ : Bomb) = tickBomb b0) :=
  ⟨by decide,
    updateBombs_lifecycle_scenarioB.2 scenarioBPlaced ⟨1, 0, 0, 3, 1⟩ (by decide)⟩

/-- C9: in concrete scenario C, agent 1 (capacity 1) walks onto an
extra_bomb loot and its maxBombs rises to 2; it then places two bombs,
a third attempt while both are active is rejected, and after the first
bomb explodes a third placement succeeds. -/
theorem extra_bomb_loot_scenarioC :
    scenarioCStart.players.map (fun p => p.maxBombs) = [1, 1, 1, 1] ∧
    scC1.1 = true ∧
    scC1.2.players.map (fun p => p.maxBombs) = [2, 1, 1, 1] ∧
    scC2.1 = true ∧ scC5.1 = true ∧
    scC5.2.players.map (fun p => p.activeBombs) = [2, 0, 0, 0] ∧
    scC7.1 = false ∧ scC7.2 = scCu4 ∧
    scCu5.bombs.map (fun b => (b.x, b.y)) = [(3, 0)] ∧
    scCu5.players.map (fun p => p.activeBombs) = [1, 0, 0, 0] ∧
    scC9.1 = true := by
  refine ⟨by decide, by decide, by decide, by decide, by decide, by decide,
    by decide, by decide, by decide, by decide, by decide⟩

/-- Closed form of the blast-walk position: distance i along the offset. -/
theorem stepPos_eq (x y dx dy : Int) (i : Nat) :
    stepPos x y dx dy i = (x + i * dx, y + i * dy) := by
  induction i generalizing x y with
  | zero => simp [stepPos]
  | succ i ih =>
    show stepPos (x + dx) (y + dy) dx dy i = _
    rw [ih]
    simp only [Prod.mk.injEq]
    constructor <;> push_cast <;> ring

/-- Characterization of the blast walk: a cell is marked by the walk of
one direction exactly when it lies at some distance i between 1 and the
range, every strictly earlier cell of the walk is Empty, and the cell
itself is Empty or Soft. -/
theorem mem_walkFrom_iff (g : Grid) (dx dy : Int) : ∀ (n : Nat) (x y : Int) (p : Int × Int),
    p ∈ walkFrom g x y dx dy n ↔
      ∃ i : Nat, 1 ≤ i ∧ i ≤ n ∧ p = stepPos x y dx dy i ∧
        (∀ k : Nat, 1 ≤ k → k < i → cellAtP g (stepPos x y dx dy k) = some Cell.empty) ∧
        (cellAtP g (stepPos x y dx dy i) = some Cell.empty ∨
         cellAtP g (stepPos x y dx dy i) = some Cell.soft) := by
  intro n
  induction n with
  | zero =>
    intro x y p
    simp only [walkFrom, List.not_mem_nil, false_iff, not_exists]
    intro i h
    omega
  | succ n ih =>
    intro x y p
    have hstep1 : cellAtP g (stepPos x y dx dy 1) = cellAt g (x + dx) (y + dy) := rfl
    unfold walkFrom
    cases hc : cellAt g (x + dx) (y + dy) with
    | none =>
      simp only [List.not_mem_nil, false_iff]
      rintro ⟨i, h1, h2, hp, hk, hcell⟩
      rcases Nat.lt_or_ge 1 i with hgt | hle
      · have he := hk 1 le_rfl hgt
        rw [hstep1, hc] at he
        cases he
      · have hi1 : i = 1 := le_antisymm hle h1
        subst hi1
        rw [hstep1, hc] at hcell
        rcases hcell with h | h <;> cases h
    | some c =>
      cases c with
      | hard =>
        simp only [List.not_mem_nil, false_iff]
        rintro ⟨i, h1, h2, hp, hk, hcell⟩
        rcases Nat.lt_or_ge 1 i with hgt | hle
        · have he := hk 1 le_rfl hgt
          rw [hstep1, hc] at he
          cases he
        · have hi1 : i = 1 := le_antisymm hle h1
          subst hi1
          rw [hstep1, hc] at hcell
          rcases hcell with h | h <;> cases h
      | soft =>
        simp only [List.mem_singleton]
        constructor
        · intro hp
          refine ⟨1, le_rfl, by omega, hp, fun k hk1 hk2 => absurd hk2 (by omega), ?_⟩
          rw [hstep1, hc]
          exact Or.inr rfl
        · rintro ⟨i, h1, h2, hp, hk, hcell⟩
          rcases Nat.lt_or_ge 1 i with hgt | hle
          · have he := hk 1 le_rfl hgt
            rw [hstep1, hc] at he
            cases he
          · have hi1 : i = 1 := le_antisymm hle h1
            subst hi1
            exact hp
      | empty =>
        simp only [List.mem_cons]
        rw [ih (x + dx) (y + dy) p]
        constructor
        · rintro (hp | ⟨i, h1, h2, hp, hk, hcell⟩)
          · refine ⟨1, le_rfl, by omega, hp, fun k hk1 hk2 => absurd hk2 (by omega), ?_⟩
            rw [hstep1, hc]
            exact Or.inl rfl
          · refine ⟨i + 1, by omega, by omega, hp, ?_, hcell⟩
            intro k hk1 hk2
            cases k with
            | zero => omega
            | succ k =>
              cases Nat.eq_zero_or_pos k with
              | inl hz =>
                subst hz
                rw [hstep1, hc]
              | inr hpos =>
                exact hk k hpos (by omega)
        · rintro ⟨i, h1, h2, hp, hk, hcell⟩
          cases i with
          | zero => omega
          | succ i =>
            cases Nat.eq_zero_or_pos i with
            | inl hz =>
              subst hz
              exact Or.inl hp
            | inr hpos =>
              refine Or.inr ⟨i, hpos, by omega, hp, ?_, hcell⟩
              intro k hk1 hk2
              exact hk (k + 1) (by omega) (by omega)

/-- Two blast-walk positions from the same origin coincide only for the
same direction and distance, or at distance 0 (the origin itself). -/
theorem stepPos_collision (d d' : Direction) (hd : d ≠ Direction.stay)
    (hd' : d' ≠ Direction.stay) (x y : Int) (i i' : Nat)
    (heq : stepPos x y (delta d).1 (delta d).2 i =
      stepPos x y (delta d').1 (delta d').2 i') :
    (d = d' ∧ i = i') ∨ (i = 0 ∧ i' = 0) := by
  rw [stepPos_eq, stepPos_eq] at heq
  cases d <;> cases d' <;>
    simp only [delta, Prod.mk.injEq, add_right_inj] at heq <;>
    first
    | exact absurd rfl hd
    | exact absurd rfl hd'
    | (simp only [reduceCtorEq, false_and, false_or, true_and]
       omega)
    | omega

/-- Every cell of a bomb's explosion set is either the bomb's own cell or
lies on one of the four directional blast walks. -/
theorem mem_blastCells_elim (g : Grid) (b : Bomb) (p : Int × Int)
    (h : p ∈ blastCells g b) :
    p = (b.x, b.y) ∨
      ∃ d : Direction, d ≠ Direction.stay ∧
        ∃ i : Nat, 1 ≤ i ∧ i ≤ b.range ∧
          p = stepPos b.x b.y (delta d).1 (delta d).2 i ∧
          (∀ k : Nat, 1 ≤ k → k < i →
            cellAtP g (stepPos b.x b.y (delta d).1 (delta d).2 k) = some Cell.empty) ∧
          (cellAtP g (stepPos b.x b.y (delta d).1 (delta d).2 i) = some Cell.empty ∨
           cellAtP g (stepPos b.x b.y (delta d).1 (delta d).2 i) = some Cell.soft) := by
  unfold blastCells at h
  rcases List.mem_cons.mp h with hp | hp
  · exact Or.inl hp
  · refine Or.inr ?_
    rcases List.mem_append.mp hp with hp | hp
    rcases List.mem_append.mp hp with hp | hp
    rcases List.mem_append.mp hp with hp | hp
    · exact ⟨Direction.up, by decide,
        (mem_walkFrom_iff g 0 (-1) b.range b.x b.y p).mp hp⟩
    · exact ⟨Direction.down, by decide,
        (mem_walkFrom_iff g 0 1 b.range b.x b.y p).mp hp⟩
    · exact ⟨Direction.left, by decide,
        (mem_walkFrom_iff g (-1) 0 b.range b.x b.y p).mp hp⟩
    · exact ⟨Direction.right, by decide,
        (mem_walkFrom_iff g 1 0 b.range b.x b.y p).mp hp⟩

/-- C4: blast-stop invariant for a single detonating bomb: if the first
Soft or Hard cell along a cardinal direction lies at distance j, then no
cell of that direction beyond distance j is ever marked by this bomb's
detonation; a Hard cell at distance j is itself never marked, while a Soft
cell there is marked (when within range). Chain-triggered re-detonations
mark cells through their own blastCells sets and are outside this set. -/
theorem blast_stop_invariant (g : Grid) (b : Bomb) (d : Direction)
    (hd : d ≠ Direction.stay) (j : Nat) (hj : 1 ≤ j)
    (hfirst : ∀ k : Nat, 1 ≤ k → k < j →
      cellAtP g (stepPos b.x b.y (delta d).1 (delta d).2 k) = some Cell.empty)
    (hblock : cellAtP g (stepPos b.x b.y (delta d).1 (delta d).2 j) = some Cell.soft ∨
      cellAtP g (stepPos b.x b.y (delta d).1 (delta d).2 j) = some Cell.hard) :
    (∀ i : Nat, j < i →
      stepPos b.x b.y (delta d).1 (delta d).2 i ∉ blastCells g b) ∧
    (cellAtP g (stepPos b.x b.y (delta d).1 (delta d).2 j) = some Cell.hard →
      stepPos b.x b.y (delta d).1 (delta d).2 j ∉ blastCells g b) ∧
    (cellAtP g (stepPos b.x b.y (delta d).1 (delta d).2 j) = some Cell.soft →
      j ≤ b.range →
      stepPos b.x b.y (delta d).1 (delta d).2 j ∈ blastCells g b) := by
  refine ⟨?_, ?_, ?_⟩
  · intro i hi hmem
    rcases mem_blastCells_elim g b _ hmem with hp | ⟨d', hd', i', h1', hr', hp, hk', hcell'⟩
    · have hcol := stepPos_collision d d hd hd b.x b.y i 0 hp
      rcases hcol with ⟨_, h0⟩ | ⟨h0, _⟩ <;> omega
    · have hcol := stepPos_collision d d' hd hd' b.x b.y i i' hp
      rcases hcol with ⟨hdd, hii⟩ | ⟨h0, _⟩
      · subst hdd
        subst hii
        have he := hk' j hj (by omega)
        rcases hblock with h | h <;>
          · have hcontra := h.symm.trans he
            simp at hcontra
      · omega
  · intro hhard hmem
    rcases mem_blastCells_elim g b _ hmem with hp | ⟨d', hd', i', h1', hr', hp, hk', hcell'⟩
    · have hcol := stepPos_collision d d hd hd b.x b.y j 0 hp
      rcases hcol with ⟨_, h0⟩ | ⟨h0, _⟩ <;> omega
    · have hcol := stepPos_collision d d' hd hd' b.x b.y j i' hp
      rcases hcol with ⟨hdd, hii⟩ | ⟨h0, _⟩
      · subst hdd
        subst hii
        rcases hcell' with h | h <;>
          · have hcontra := hhard.symm.trans h
            simp at hcontra
      · omega
  · intro hsoft hrange
    have hmem : stepPos b.x b.y (delta d).1 (delta d).2 j ∈
        walkFrom g b.x b.y (delta d).1 (delta d).2 b.range :=
      (mem_walkFrom_iff g (delta d).1 (delta d).2 b.range b.x b.y _).mpr
        ⟨j, hj, hrange, rfl, hfirst, Or.inr hsoft⟩
    unfold blastCells
    cases d with
    | up =>
      refine List.mem_cons_of_mem _ ?_
      simp only [List.mem_append]
      exact Or.inl (Or.inl (Or.inl hmem))
    | down =>
      refine List.mem_cons_of_mem _ ?_
      simp only [List.mem_append]
      exact Or.inl (Or.inl (Or.inr hmem))
    | left =>
      refine List.mem_cons_of_mem _ ?_
      simp only [List.mem_append]
      exact Or.inl (Or.inr hmem)
    | right =>
      refine List.mem_cons_of_mem _ ?_
      simp only [List.mem_append]
      exact Or.inr hmem
    | stay => exact absurd rfl hd

/-- Witness for C4: on the one-row grid the first blocker right of the
bomb is the Soft cell at distance 2; no cell beyond it is marked. -/
theorem blast_stop_invariant_witness :
    (Direction.right ≠ Direction.stay) ∧ (1 ≤ 2) ∧
    (cellAtP gridBlast
        (stepPos bombBlast.x bombBlast.y
          (delta Direction.right).1 (delta Direction.right).2 2) = some Cell.soft ∨
     cellAtP gridBlast
        (stepPos bombBlast.x bombBlast.y
          (delta Direction.right).1 (delta Direction.right).2 2) = some Cell.hard) ∧
    (∀ i : Nat, 2 < i →
      stepPos bombBlast.x bombBlast.y
          (delta Direction.right).1 (delta Direction.right).2 i ∉
        blastCells gridBlast bombBlast) :=
  ⟨by decide, by decide, Or.inl (by decide),
    (blast_stop_invariant gridBlast bombBlast Direction.right (by decide) 2 (by decide)
      (fun k h1 h2 => by
        have hk1 : k = 1 := by omega
        subst hk1
        decide)
      (Or.inl (by decide))).1⟩

/-- C7: the throw action requires a non-empty carriedBomb (otherwise a
reported no-op leaving the state unchanged); a carried bomb lands at the
cell-by-cell projection throwProject, whose every step wraps toroidally:
at the exact boundary coordinate of each of the four directions one
projection step lands on the opposite edge; and in concrete scenario D a
bomb thrown rightward from the rightmost column lands at the leftmost
column of the same row. -/
theorem throwBomb_wrap_contract :
    (∀ (s : GameState) (pid i : Nat) (a : Agent) (d : Direction),
      s.players.findIdx? (fun p => p.id == pid) = some i →
      s.players[i]? = some a → a.carriedBomb = none →
      throwBomb s pid d = (false, s)) ∧
    (∀ (W H : Nat) (x y : Int), 1 ≤ W → 1 ≤ H →
      (0 ≤ y → y < (H : Int) →
        wrapPos W H ((W : Int) - 1) y
          (delta Direction.right).1 (delta Direction.right).2 = (0, y)) ∧
      (0 ≤ y → y < (H : Int) →
        wrapPos W H 0 y
          (delta Direction.left).1 (delta Direction.left).2 = ((W : Int) - 1, y)) ∧
      (0 ≤ x → x < (W : Int) →
        wrapPos W H x 0
          (delta Direction.up).1 (delta Direction.up).2 = (x, (H : Int) - 1)) ∧
      (0 ≤ x → x < (W : Int) →
        wrapPos W H x ((H : Int) - 1)
          (delta Direction.down).1 (delta Direction.down).2 = (x, 0))) ∧
    ((throwBomb scenarioDStart 1 Direction.right).1 = true ∧
     (throwBomb scenarioDStart 1 Direction.right).2.bombs.map (fun b => (b.x, b.y)) =
       [(0, 0)] ∧
     (throwBomb scenarioDStart 1 Direction.right).2.players.map
       (fun a => a.carriedBomb) = [none]) := by
  refine ⟨?_, ?_, by decide, by decide, by decide⟩
  · intro s pid i a d hi ha hnone
    unfold throwBomb
    rw [hi]
    simp only [ha, hnone]
  · intro W H x y hW hH
    have hW1 : (1 : Int) ≤ (W : Int) := by exact_mod_cast hW
    have hH1 : (1 : Int) ≤ (H : Int) := by exact_mod_cast hH
    refine ⟨?_, ?_, ?_, ?_⟩
    · intro hy0 hyH
      show (((W : Int) - 1 + 1) % (W : Int), (y + 0) % (H : Int)) = (0, y)
      rw [show (W : Int) - 1 + 1 = (W : Int) by ring, Int.emod_self, add_zero,
        Int.emod_eq_of_lt hy0 hyH]
    · intro hy0 hyH
      show (((0 : Int) + -1) % (W : Int), (y + 0) % (H : Int)) = ((W : Int) - 1, y)
      rw [show ((0 : Int) + -1) = ((W : Int) - 1) + (W : Int) * (-1) by ring,
        Int.add_mul_emod_self_left, add_zero, Int.emod_eq_of_lt hy0 hyH,
        Int.emod_eq_of_lt (by omega) (by omega)]
    · intro hx0 hxW
      show ((x + 0) % (W : Int), ((0 : Int) + -1) % (H : Int)) = (x, (H : Int) - 1)
      rw [show ((0 : Int) + -1) = ((H : Int) - 1) + (H : Int) * (-1) by ring,
        Int.add_mul_emod_self_left, add_zero, Int.emod_eq_of_lt hx0 hxW,
        Int.emod_eq_of_lt (by omega) (by omega)]
    · intro hx0 hxW
      show ((x + 0) % (W : Int), ((H : Int) - 1 + 1) % (H : Int)) = (x, 0)
      rw [show (H : Int) - 1 + 1 = (H : Int) by ring, Int.emod_self, add_zero,
        Int.emod_eq_of_lt hx0 hxW]

/-- Witness for C7: the no-carry rejection on scenario B's agent 1, and
the right-direction wrap step at the default 13 by 11 dimensions. -/
theorem throwBomb_wrap_contract_witness :
    (scenarioBStart.players.findIdx? (fun p => p.id == 1) = some 0 ∧
     scenarioBStart.players[0]? = some (mkAgent 1 0 0) ∧
     (mkAgent 1 0 0).carriedBomb = none ∧
     throwBomb scenarioBStart 1 Direction.up = (false, scenarioBStart)) ∧
    (1 ≤ 13 ∧ 1 ≤ 11 ∧ (0 : Int) ≤ 0 ∧ (0 : Int) < (11 : Int) ∧
     wrapPos 13 11 ((13 : Int) - 1) 0
       (delta Direction.right).1 (delta Direction.right).2 = (0, 0)) :=
  ⟨⟨by decide, by decide, by decide,
    throwBomb_wrap_contract.1 scenarioBStart 1 0 (mkAgent 1 0 0) Direction.up
      (by decide) (by decide) (by decide)⟩,
   ⟨by decide, by decide, by decide, by decide,
    (throwBomb_wrap_contract.2.1 13 11 0 0 (by decide) (by decide)).1
      (by decide) (by decide)⟩⟩

/-- Loot effects never lower capacity: activeBombs is untouched and
maxBombs can only grow. -/
theorem applyLoot_capacity (t : LootType) (a : Agent) :
    (applyLoot t a).activeBombs = a.activeBombs ∧
      a.maxBombs ≤ (applyLoot t a).maxBombs := by
  cases t <;> simp [applyLoot]

/-- The initial arena satisfies the capacity invariant. -/
theorem capacityOK_init (seed : Nat) : CapacityOK (initGame seed) := by
  intro a ha
  simp only [initGame, List.mem_cons, List.not_mem_nil, or_false] at ha
  rcases ha with h | h | h | h <;> subst h <;> decide

/-- movePlayer preserves the capacity invariant. -/
theorem capacityOK_move (s : GameState) (pid : Nat) (d : Direction)
    (h : CapacityOK s) : CapacityOK (movePlayer s pid d).2 := by
  unfold movePlayer
  split
  · exact h
  · split
    · exact h
    · rename_i oi i hi oa a ha
      simp only []
      split
      · exact h
      · split
        · intro x hx
          rcases List.mem_or_eq_of_mem_set hx with hx | rfl
          · exact h x hx
          · exact h a (List.getElem?_mem ha)
        · split
          · intro x hx
            rcases List.mem_or_eq_of_mem_set hx with hx | rfl
            · exact h x hx
            · exact h a (List.getElem?_mem ha)
          · rename_i j hl ol l hj
            intro x hx
            rcases List.mem_or_eq_of_mem_set hx with hx | rfl
            · exact h x hx
            · have h1 := applyLoot_capacity l.type
                { a with x := a.x + (delta d).1, y := a.y + (delta d).2 }
              have h2 := h a (List.getElem?_mem ha)
              simp only [] at h1
              omega

/-- playerPlaceBomb preserves the capacity invariant. -/
theorem capacityOK_place (s : GameState) (pid : Nat)
    (h : CapacityOK s) : CapacityOK (playerPlaceBomb s pid).2 := by
  unfold playerPlaceBomb
  split
  · exact h
  · split
    · exact h
    · rename_i oi i hi oa a ha
      split
      · rename_i hlt
        intro x hx
        rcases List.mem_or_eq_of_mem_set hx with hx | rfl
        · exact h x hx
        · simp only []
          omega
      · exact h

/-- pickupBomb preserves the capacity invariant. -/
theorem capacityOK_pick (s : GameState) (pid : Nat)
    (h : CapacityOK s) : CapacityOK (pickupBomb s pid).2 := by
  unfold pickupBomb
  split
  · exact h
  · split
    · exact h
    · rename_i oi i hi oa a ha
      split
      · simp only []
        split
        · exact h
        · split
          · exact h
          · rename_i j hjf ob b hjb
            intro x hx
            rcases List.mem_or_eq_of_mem_set hx with hx | rfl
            · obtain ⟨p, hp, rfl⟩ := List.mem_map.mp hx
              have h2 := h p hp
              by_cases hown : (p.id == b.playerId) = true <;>
                simp only [hown, if_true, Bool.false_eq_true, if_false] <;>
                omega
            · have h2 := h a (List.getElem?_mem ha)
              by_cases hown : (a.id == b.playerId) = true <;>
                simp only [hown, if_true, Bool.false_eq_true, if_false] <;>
                omega
      · exact h

/-- throwBomb preserves the capacity invariant. -/
theorem capacityOK_toss (s : GameState) (pid : Nat) (d : Direction)
    (h : CapacityOK s) : CapacityOK (throwBomb s pid d).2 := by
  unfold throwBomb
  split
  · exact h
  · split
    · exact h
    · rename_i oi i hi oa a ha
      split
      · exact h
      · simp only []
        intro x hx
        rcases List.mem_or_eq_of_mem_set hx with hx | rfl
        · exact h x hx
        · exact h a (List.getElem?_mem ha)

/-- nextTurnGame preserves the capacity invariant. -/
theorem capacityOK_next (s : GameState)
    (h : CapacityOK s) : CapacityOK (nextTurnGame s) := h

/-- updateBombs preserves the capacity invariant. -/
theorem capacityOK_update (s : GameState)
    (h : CapacityOK s) : CapacityOK (updateBombs s) := by
  intro x hx
  unfold updateBombs at hx
  simp only [] at hx
  obtain ⟨p, hp, rfl⟩ := List.mem_map.mp hx
  have := h p hp
  simp only []
  omega

/-- C8: every state reachable from arena initialization by any sequence of
movePlayer, playerPlaceBomb, pickupBomb, throwBomb, nextTurnGame and
updateBombs satisfies 0 ≤ activeBombs ≤ maxBombs for every agent; picking
up a bomb frees one of the owner's activeBombs slots, and an explosion
frees one slot per detonated bomb of each owner. -/
theorem capacity_invariant :
    (∀ s : GameState, Reachable s → CapacityOK s) ∧
    (∀ (s : GameState) (pid i : Nat) (a : Agent) (j : Nat) (b : Bomb),
      s.players.findIdx? (fun p => p.id == pid) = some i →
      s.players[i]? = some a →
      (a.canCarryBombs && a.carriedBomb.isNone) = true →
      s.bombs.findIdx? (fun b2 => b2.x == a.x && b2.y == a.y) = some j →
      s.bombs[j]? = some b →
      ∀ (k : Nat) (p : Agent), s.players[k]? = some p →
        ∃ p2, (pickupBomb s pid).2.players[k]? = some p2 ∧
          p2.activeBombs =
            (if p.id == b.playerId then p.activeBombs - 1 else p.activeBombs)) ∧
    (∀ (s : GameState) (k : Nat) (p : Agent), s.players[k]? = some p →
      ∃ p2, (updateBombs s).players[k]? = some p2 ∧
        p2.activeBombs = p.activeBombs -
          ((detonatingBombs s.grid (s.bombs.map tickBomb)).filter
            (fun b => b.playerId == p.id)).length) := by
  refine ⟨?_, ?_, ?_⟩
  · intro s hs
    induction hs with
    | init seed => exact capacityOK_init seed
    | move s pid d hr ih => exact capacityOK_move s pid d ih
    | place s pid hr ih => exact capacityOK_place s pid ih
    | pick s pid hr ih => exact capacityOK_pick s pid ih
    | toss s pid d hr ih => exact capacityOK_toss s pid d ih
    | next s hr ih => exact capacityOK_next s ih
    | update s hr ih => exact capacityOK_update s ih
  · intro s pid i a j b hi ha hcarry hjf hjb k p hk
    unfold pickupBomb
    rw [hi]
    simp only [ha, hcarry, if_true, hjf, hjb]
    by_cases hki : k = i
    · subst hki
      have hpa : p = a := by
        rw [hk] at ha
        injection ha
      subst hpa
      have hlen : k < s.players.length := (List.getElem?_eq_some.mp hk).1
      have hlen2 : k < (s.players.map (fun q =>
          if q.id == b.playerId then { q with activeBombs := q.activeBombs - 1 }
          else q)).length := by
        simpa using hlen
      refine ⟨_, List.getElem?_set_self hlen2, ?_⟩
      by_cases hown : (p.id == b.playerId) = true <;> simp [hown]
    · rw [List.getElem?_set_ne (fun hx => hki hx.symm)]
      rw [List.getElem?_map, hk]
      refine ⟨_, rfl, ?_⟩
      by_cases hown : (p.id == b.playerId) = true <;> simp [hown]
  · intro s k p hk
    unfold updateBombs
    simp only [List.getElem?_map, hk]
    exact ⟨_, rfl, rfl⟩

/-- Witness for C8: the freshly initialized arena at seed 0 is reachable
and satisfies the capacity invariant. -/
theorem capacity_invariant_witness :
    Reachable (initGame 0) ∧ CapacityOK (initGame 0) :=
  ⟨Reachable.init 0, capacity_invariant.1 (initGame 0) (Reachable.init 0)⟩

end Bombervibe
